import Mathlib

/-!
Verification of the incremental-state and batching pipeline of the
`docstring-ai` repository (package `docstring_ai`), against its
natural-language specification.

The definitions below are a shallow embedding of the Python source:

* `docstring_ai/lib/process.py` — `process_files_and_create_prs` (the
  per-folder assignment loop and dispatch loop), `process_single_file`
  (token-budget computation), `approve_and_save_file`,
  `filter_files_by_hash`, `process_file_descriptions`;
* `docstring_ai/__main__.py` — the call of `process_files_and_create_prs`
  from `main` (modelled as Python keyword-argument binding);
* `docstring_ai/lib/github_utils.py` — the signature of `create_github_pr`.

External collaborators (OpenAI, ChromaDB, git, the file system) are
modelled as abstract function parameters or oracles.  Code of the
repository that is not part of the four sources above
(`docstring_ai/lib/utils.py`, `docstring_ai/lib/prompt_utils.py`) is
modelled from the specification where a claim depends on it; each such
definition carries a doc comment starting with `Modelled from the spec:`.
-/

set_option maxRecDepth 4000

namespace DocstringAI

/-! ### Generic string helpers (Python `str` operations) -/

/-- Boolean test that the first character list is an initial segment of the
second; used to model Python's `str.startswith`. -/
def isPrefixList : List Char → List Char → Bool
  | [], _ => true
  | _ :: _, [] => false
  | a :: as, b :: bs => a = b && isPrefixList as bs

/-- Model of Python's `str.startswith`: `startswith pre s` is true when
`pre` is an initial segment of `s`. -/
def startswith (pre s : String) : Bool :=
  isPrefixList pre.toList s.toList

/-- Fuel-indexed worker for `pyReplace`; replaces non-overlapping
occurrences of `pat` left to right, as Python's `str.replace` does.
The fuel is the length of the input, which bounds the recursion. -/
def replaceFuel (pat rep : List Char) : Nat → List Char → List Char
  | _, [] => []
  | 0, s => s
  | fuel + 1, c :: rest =>
      if pat ≠ [] ∧ isPrefixList pat (c :: rest) then
        rep ++ replaceFuel pat rep fuel (List.drop (pat.length - 1) rest)
      else
        c :: replaceFuel pat rep fuel rest

/-- Model of Python's `str.replace`: replace every non-overlapping
occurrence of `pat` in `s` by `rep`, scanning left to right. -/
def pyReplace (s pat rep : String) : String :=
  String.mk (replaceFuel pat.toList rep.toList s.toList.length s.toList)

/-! ### Python keyword-argument call binding

`__main__.py` calls `process_files_and_create_prs` with keyword arguments
only, and `process.py` calls `create_github_pr` with keyword arguments
only.  Python binds a call by matching each keyword argument to a
parameter name; a required parameter (one without a default) that receives
no argument raises `TypeError` before the callee's body runs.  None of the
parameters of the two callees have defaults. -/

/-- Python call binding for an all-keyword call to a function whose
parameters all lack defaults: every parameter must receive an argument and
every argument must name a parameter. -/
def pythonCallOk (params kwargs : List String) : Bool :=
  params.all (fun p => kwargs.contains p) && kwargs.all (fun k => params.contains k)

/-- Outcome of a Python all-keyword call: the body runs only when binding
succeeds; otherwise `TypeError` is raised at the call site. -/
def callResult (params kwargs : List String) : Except String Unit :=
  if pythonCallOk params kwargs then Except.ok () else Except.error ("TypeError")

/-- Parameter names of `process_files_and_create_prs`
(process.py lines 154-165); none has a default value. -/
def process_files_and_create_prs_params : List String :=
  ["repo_path", "api_key", "create_pr", "github_token", "github_repo",
   "branch_name", "pr_name", "pr_depth", "manual", "target_branch"]

/-- Keyword arguments passed to `process_files_and_create_prs` by `main`
(__main__.py lines 218-228). -/
def main_process_call_kwargs : List String :=
  ["repo_path", "api_key", "create_pr", "github_token", "github_repo",
   "branch_name", "pr_name", "pr_depth", "manual"]

/-- Parameter names of `create_github_pr` (github_utils.py lines 98-106);
none has a default value. -/
def create_github_pr_params : List String :=
  ["repo_path", "github_token", "github_repo", "branch_name", "folder",
   "pr_name", "target_branch"]

/-- Keyword arguments passed to `create_github_pr` by
`process_files_and_create_prs` (process.py lines 337-344). -/
def process_pr_call_kwargs : List String :=
  ["repo_path", "github_token", "github_repo", "branch_name", "pr_name",
   "target_branch"]

/-- Whether the call of `create_github_pr` inside the dispatch loop binds
successfully under Python's calling convention. -/
def prCallBindsOk : Bool :=
  pythonCallOk create_github_pr_params process_pr_call_kwargs

/-! ### `filter_files_by_hash` (process.py lines 520-550)

A repository file is modelled as a pair of its path and its readable
content: `none` models a file whose read (inside `compute_sha256`) raises,
which the source logs and skips.  The hash function and the
`os.path.relpath` computation are abstract parameters. -/

/-- Model of Python's `dict.get` on the cache: the value stored for the
first matching key, if any. -/
def cacheGet (cache : List (String × String)) (k : String) : Option String :=
  (cache.find? (fun kv => kv.1 == k)).map (fun kv => kv.2)

/-- Embedding of `filter_files_by_hash`: keep, in input order, each
readable file whose current content hash differs from the cached hash for
its relative path (a missing cache entry counts as differing); a file
whose content cannot be read is skipped. -/
def filter_files_by_hash (hash rel : String → String)
    (files : List (String × Option String)) (cache : List (String × String)) :
    List String :=
  files.filterMap (fun pc =>
    match pc.2 with
    | none => none
    | some content =>
        if cacheGet cache (rel pc.1) = some (hash content) then none
        else some pc.1)

/-! ### The per-folder assignment loop (process.py lines 278-284)

```
i = 0
length = len(files_to_describe)
while i < length:
    if (files_to_describe[0].startswith(str(Path(folder))) or depth == 0):
        python_files_to_process.append(files_to_describe.pop(0))
    i += 1
```

The loop always inspects index 0 of the queue and runs exactly `length`
iterations; `assignLoop` is its fuel-indexed embedding, started with fuel
equal to the initial queue length.  It returns the files appended to
`python_files_to_process` and the queue remaining after the loop. -/

/-- One run of the while-loop body, indexed by the remaining iteration
count.  The empty-queue case with fuel remaining is unreachable from
`assignFolder` (at most one element is popped per iteration). -/
def assignLoop (folder : String) (depth : Nat) :
    Nat → List String → List String × List String
  | 0, q => ([], q)
  | _ + 1, [] => ([], [])
  | fuel + 1, f :: rest =>
      if startswith folder f || depth == 0 then
        let p := assignLoop folder depth fuel rest
        (f :: p.1, p.2)
      else
        assignLoop folder depth fuel (f :: rest)

/-- Embedding of the per-folder assignment loop: files claimed for the
folder's batch, and the queue left for later batches. -/
def assignFolder (folder : String) (depth : Nat) (q : List String) :
    List String × List String :=
  assignLoop folder depth q.length q

/-- Modelled from the spec: the single-pass stable partition of §4.3 that
the specification requires for assignment (`RepoTraverser.assign`, whose
implementation `traverse_repo`-based assignment lives in the loop above):
a batch collects every not-yet-claimed file whose path lies under the
batch's folder (or every remaining file for the depth-0 root batch),
preserving input order. -/
def specAssignFolder (folder : String) (depth : Nat) (q : List String) :
    List String × List String :=
  q.partition (fun f => startswith folder f || depth == 0)

/-- Per-batch assignments produced by the source's loop, iterating the
batches in processing order and threading the queue through. -/
def codeAssignAll : List (Nat × String) → List String → List (Nat × String × List String)
  | [], _ => []
  | (d, folder) :: rest, q =>
      let a := assignFolder folder d q
      (d, folder, a.1) :: codeAssignAll rest a.2

/-- Modelled from the spec: per-batch assignments under the stable
partition of §4.3, iterating the batches in processing order. -/
def specAssignAll : List (Nat × String) → List String → List (Nat × String × List String)
  | [], _ => []
  | (d, folder) :: rest, q =>
      let a := specAssignFolder folder d q
      (d, folder, a.1) :: specAssignAll rest a.2

/-! ### The dispatch loop (process.py lines 273-349) -/

/-- Configuration flags read by the dispatch loop: `create_pr`,
`git_present`, truthiness of `github_token` and `github_repo`, and the
`manual` flag. -/
structure RunCfg where
  create_pr : Bool
  git_present : Bool
  has_token : Bool
  has_repo : Bool
  manual : Bool
deriving DecidableEq

/-- Record of one non-empty batch processed by the dispatch loop: its
depth and folder, the files handed to `process_single_file`, whether a
pull-request creation was attempted (Step 15 reached and, in manual mode,
confirmed), and the result reported for it. -/
structure BatchRecord where
  depth : Nat
  folder : String
  files : List String
  prAttempted : Bool
  prCreated : Bool
deriving DecidableEq

/-- Condition guarding Step 15 (process.py line 318):
`create_pr and git_present and github_token and github_repo`. -/
def prEnabled (cfg : RunCfg) : Bool :=
  cfg.create_pr && cfg.git_present && cfg.has_token && cfg.has_repo

/-- Embedding of the dispatch loop over the flattened `(depth, folder)`
iteration sequence.  For each folder: run the assignment loop; skip the
folder if no files were assigned (`continue`, no persistence and no PR);
otherwise process the assigned files (Steps 12-14) and, when PR creation
is enabled and (in manual mode) confirmed, evaluate the call of
`create_github_pr`.  That call site omits the required parameter `folder`,
so when it is reached Python raises `TypeError`, which no handler in the
loop catches: the run aborts.  The result is the list of processed-batch
records, the queue remaining, and whether the loop was aborted by the
uncaught `TypeError`.  `confirm` models `prompt_user_confirmation` and
`prOracle` the boolean result `create_github_pr` would return if its call
bound successfully. -/
def runBatches (cfg : RunCfg) (confirm prOracle : String → Bool) :
    List (Nat × String) → List String → List BatchRecord × List String × Bool
  | [], q => ([], q, false)
  | (d, folder) :: rest, q =>
      let a := assignFolder folder d q
      if a.1 = [] then runBatches cfg confirm prOracle rest a.2
      else if prEnabled cfg && (!cfg.manual || confirm folder) then
        if prCallBindsOk then
          let r := runBatches cfg confirm prOracle rest a.2
          (⟨d, folder, a.1, true, prOracle folder⟩ :: r.1, r.2)
        else
          ([⟨d, folder, a.1, true, false⟩], a.2, true)
      else
        let r := runBatches cfg confirm prOracle rest a.2
        (⟨d, folder, a.1, false, false⟩ :: r.1, r.2)

/-- Iteration sequence of the dispatch loop:
`for depth, folders in reversed(folder_dict.items()): for folder in folders:`
— the depth groups of `folder_dict` in reverse insertion order, each
group's folders in order. -/
def foldersSeq (folderDict : List (Nat × List String)) : List (Nat × String) :=
  folderDict.reverse.flatMap (fun dfs => dfs.2.map (fun f => (dfs.1, f)))

/-- Embedding of the whole per-folder phase of
`process_files_and_create_prs`: the dispatch loop run over
`reversed(folder_dict.items())` with the changed-file queue. -/
def processFolders (cfg : RunCfg) (confirm prOracle : String → Bool)
    (folderDict : List (Nat × List String)) (queue : List String) :
    List BatchRecord × List String × Bool :=
  runBatches cfg confirm prOracle (foldersSeq folderDict) queue

/-- Modelled from the spec: the depth keys of the mapping returned by
`traverse_repo` (in `docstring_ai/lib/utils.py`, not under src/).  §4.3:
the walk records each directory at its depth for depths up to `maxDepth`,
with the root always recorded at depth 0, so the dictionary's keys are
`0, 1, ..., maxDepth` in insertion order. -/
def traverse_repo_keys (maxDepth : Nat) : List Nat :=
  List.range (maxDepth + 1)

/-! ### Token budget and context assembly
(process.py lines 408-418; `construct_few_shot_prompt` modelled) -/

/-- Token measure used by the source when budgeting: `process.py` measures
the target file by `len(original_code)`, i.e. its length. -/
def tokens (s : String) : Nat :=
  s.length

/-- Embedding of the budget computed at process.py line 416:
`max_tokens = MAX_TOKENS - len(original_code)`.  `maxTokens` stands for
the configuration constant `MAX_TOKENS`. -/
def tokenBudget (maxTokens : Int) (original_code : String) : Int :=
  maxTokens - tokens original_code

/-- Modelled from the spec: the greedy retrieval step of §4.4 — append
whole snippets in ranked order while the running token count stays within
the budget, stopping at the first snippet that would exceed it. -/
def greedySnippets (budget : Int) : List String → Int → String
  | [], _ => ""
  | s :: rest, used =>
      if used + tokens s ≤ budget then
        s ++ greedySnippets budget rest (used + tokens s)
      else ""

/-- Modelled from the spec: `construct_few_shot_prompt` (in
`docstring_ai/lib/prompt_utils.py`, not under src/).  §4.4: the stored
description of the target file is a mandatory priority slot, included
first and independent of the budget; ranked snippets are then appended
greedily within the budget. -/
def construct_few_shot_prompt (budget : Int) (context : String)
    (snippets : List String) : String :=
  context ++ greedySnippets budget snippets (tokens context)

/-! ### `process_file_descriptions` (process.py lines 94-151) -/

/-- One entry of the persisted context summary: a repository-relative file
path and its generated description. -/
structure ContextEntry where
  file : String
  description : String
deriving DecidableEq

/-- Loop body of `process_file_descriptions` for one file: compute the
normalized relative path; if some entry of the summary already has that
normalized path, do nothing; otherwise attempt description generation
(`gen file = none` models any exception in the try block, which is logged
and skipped) and on success append the new entry.  `norm` models
`str(Path(·))` and `rel` models `os.path.relpath(·, repo_path)`. -/
def descStep (norm rel : String → String) (gen : String → Option String)
    (summary : List ContextEntry) (f : String) : List ContextEntry :=
  let rp := norm (rel f)
  if summary.any (fun e => norm e.file == rp) then summary
  else
    match gen f with
    | none => summary
    | some d => summary ++ [⟨rp, d⟩]

/-- Embedding of the description loop of `process_file_descriptions`:
fold the loop body over the files to process. -/
def process_file_descriptions (norm rel : String → String)
    (gen : String → Option String) (files : List String)
    (summary : List ContextEntry) : List ContextEntry :=
  files.foldl (descStep norm rel gen) summary

/-- Invariant of the context summary: at most one entry per normalized
path. -/
def atMostOnePerPath (norm : String → String) (l : List ContextEntry) : Prop :=
  l.Pairwise (fun a b => norm a.file ≠ norm b.file)

/-! ### `approve_and_save_file` (process.py lines 456-517) -/

/-- Observable file-system and interaction effects of
`approve_and_save_file`.  `promptUser` is included so that the theorems
can state that the source performs no user interaction: the source body
never prompts, although it receives the `manual` flag. -/
inductive FileEvent where
  | backup
  | write (content : String)
  | promptUser
  | cacheUpdate (path hash : String)
deriving DecidableEq

/-- External collaborators of `approve_and_save_file`:
`ensure_docstring_header` (may raise, hence `Except`), `compute_sha256`
applied to the freshly written content, and `os.path.relpath`. -/
structure SaveCtx where
  ensureHeader : String → Except String String
  sha256 : String → String
  relpath : String → String

/-- Model of Python's `dict` assignment `cache[k] = v`: overwrite the
entry for `k` if present, otherwise append it. -/
def updateCache (cache : List (String × String)) (k v : String) :
    List (String × String) :=
  if cache.any (fun kv => kv.1 == k) then
    cache.map (fun kv => if kv.1 == k then (k, v) else kv)
  else cache ++ [(k, v)]

/-- Embedding of `approve_and_save_file`: fix stray code fences, return
`False` on empty content, ensure the docstring header (returning `False`
if that raises), then back up, overwrite the file, and update the cache,
returning `True`.  IO in the final try-block is modelled as succeeding;
the `manual` parameter is accepted but — exactly as in the source body —
never read.  The result is the returned boolean, the cache after the
call, and the list of effects performed. -/
def approve_and_save_file (ctx : SaveCtx)
    (new_file_content original_code python_file_path : String)
    (manual : Bool) (cache : List (String × String)) :
    Bool × List (String × String) × List FileEvent :=
  let nfc := pyReplace new_file_content ("` ``") ("```")
  if nfc = "" then (false, cache, [])
  else
    match ctx.ensureHeader nfc with
    | Except.error _ => (false, cache, [])
    | Except.ok nfc2 =>
        let rp := ctx.relpath python_file_path
        let newHash := ctx.sha256 nfc2
        (true, updateCache cache rp newHash,
          [FileEvent.backup, FileEvent.write nfc2, FileEvent.cacheUpdate rp newHash])

/-! ### Helper lemmas -/

/-- The dispatch loop over an empty changed-file queue processes no batch
and terminates normally: every folder's assignment loop claims nothing, so
every folder is skipped. -/
lemma runBatches_nil_queue (cfg : RunCfg) (confirm prOracle : String → Bool) :
    ∀ seq : List (Nat × String),
      runBatches cfg confirm prOracle seq [] = ([], [], false) := by
  intro seq
  induction seq with
  | nil => rfl
  | cons hd tl ih =>
      obtain ⟨d, folder⟩ := hd
      simpa [runBatches, assignFolder, assignLoop] using ih

/-- The depths of the batches the dispatch loop records form a sublist of
the depths of its iteration sequence, whatever the queue and the oracles
do and whether or not the loop aborts. -/
lemma runBatches_depths_sublist (cfg : RunCfg) (confirm prOracle : String → Bool) :
    ∀ (seq : List (Nat × String)) (q : List String),
      List.Sublist ((runBatches cfg confirm prOracle seq q).1.map BatchRecord.depth)
        (seq.map Prod.fst) := by
  intro seq
  induction seq with
  | nil => intro q; exact List.nil_sublist _
  | cons hd tl ih =>
      intro q
      obtain ⟨d, folder⟩ := hd
      simp only [runBatches, List.map_cons]
      split
      · exact List.Sublist.cons d (ih _)
      · split
        · split
          · simpa using List.Sublist.cons₂ d (ih _)
          · simpa using List.Sublist.cons₂ d (List.nil_sublist _)
        · simpa using List.Sublist.cons₂ d (ih _)

/-- Depth list of one folder group of the iteration sequence: every entry
equals the group's depth, so the list is pairwise `≥`. -/
lemma pairwise_ge_const_block (n : Nat) (l : List String) :
    ((l.map (fun f => (n, f))).map Prod.fst).Pairwise (· ≥ ·) := by
  induction l with
  | nil => simp
  | cons a t ih =>
      simp only [List.map_cons, List.pairwise_cons]
      refine ⟨?_, ih⟩
      intro y hy
      simp only [List.map_map, List.mem_map] at hy
      obtain ⟨f, _, rfl⟩ := hy
      exact le_refl n

/-- Flattening depth groups whose depths are non-increasing along the
list yields a pairwise non-increasing depth sequence. -/
lemma pairwise_ge_flat (l : List (Nat × List String))
    (h : l.Pairwise (fun a b => b.1 ≤ a.1)) :
    ((l.flatMap (fun dfs => dfs.2.map (fun f => (dfs.1, f)))).map Prod.fst).Pairwise
      (· ≥ ·) := by
  induction l with
  | nil => simp
  | cons hd tl ih =>
      rw [List.pairwise_cons] at h
      obtain ⟨hhd, htl⟩ := h
      simp only [List.flatMap_cons, List.map_append]
      rw [List.pairwise_append]
      refine ⟨pairwise_ge_const_block hd.1 hd.2, ih htl, ?_⟩
      intro x hx y hy
      simp only [List.map_map, List.mem_map] at hx
      obtain ⟨f, _, rfl⟩ := hx
      simp only [List.mem_map, List.mem_flatMap] at hy
      obtain ⟨pr, ⟨b, hb, g, _, rfl⟩, rfl⟩ := hy
      exact hhd b hb

/-- If the depth keys of `folder_dict` are pairwise non-decreasing in
insertion order, the reversed iteration sequence of the dispatch loop has
pairwise non-increasing depths. -/
lemma foldersSeq_depths_pairwise (folderDict : List (Nat × List String))
    (h : (folderDict.map Prod.fst).Pairwise (· ≤ ·)) :
    ((foldersSeq folderDict).map Prod.fst).Pairwise (· ≥ ·) := by
  unfold foldersSeq
  apply pairwise_ge_flat
  rw [List.pairwise_map] at h
  rw [List.pairwise_reverse]
  exact h

/-- A snippet list consumed greedily from a running count within the
budget never pushes the running count past the budget. -/
lemma greedySnippets_le (budget : Int) :
    ∀ (snips : List String) (used : Int), used ≤ budget →
      used + (tokens (greedySnippets budget snips used) : Int) ≤ budget := by
  intro snips
  induction snips with
  | nil => intro used h; simpa [greedySnippets, tokens] using h
  | cons s rest ih =>
      intro used h
      by_cases hs : used + (tokens s : Int) ≤ budget
      · have := ih (used + tokens s) hs
        simp only [greedySnippets, hs, if_pos]
        rw [show tokens (s ++ greedySnippets budget rest (used + ↑(tokens s)))
              = tokens s + tokens (greedySnippets budget rest (used + ↑(tokens s)))
            from String.length_append _ _]
        push_cast at this ⊢
        omega
      · simp only [greedySnippets, hs, if_neg, ite_false]
        simpa [tokens] using h

/-- `descStep` preserves the at-most-one-entry-per-normalized-path
invariant, provided normalization is idempotent. -/
lemma descStep_preserves (norm rel : String → String) (gen : String → Option String)
    (summary : List ContextEntry) (f : String)
    (hidem : ∀ x, norm (norm x) = norm x)
    (hinv : atMostOnePerPath norm summary) :
    atMostOnePerPath norm (descStep norm rel gen summary f) := by
  unfold descStep
  by_cases hany : summary.any (fun e => norm e.file == norm (rel f)) = true
  · simpa [hany] using hinv
  · cases hgen : gen f with
    | none => simpa [hany, hgen] using hinv
    | some d =>
        simp only [hany, hgen, Bool.false_eq_true, if_false]
        unfold atMostOnePerPath
        rw [List.pairwise_append]
        refine ⟨hinv, List.pairwise_singleton _ _, ?_⟩
        intro a ha b hb
        rw [List.mem_singleton] at hb
        subst hb
        simp only []
        rw [hidem]
        intro hEq
        apply hany
        rw [List.any_eq_true]
        exact ⟨a, ha, by simp [hEq]⟩

/-! ### Claim theorems -/

/-- C1: the per-folder assignment loop is a truncated head scan, not the
stable partition the claim requires.  With changed files
`repo/main.py, repo/pkg/util.py` (in that queue order) and batches
`repo/pkg` (depth 1, processed first) then the root `repo` (depth 0),
the loop re-tests only the queue head during the `repo/pkg` batch, so
`repo/pkg/util.py` is never inspected there — it is skipped because of
partial iteration of the queue and only swept up by the depth-0
catch-all — whereas the specified stable partition assigns it to the
`repo/pkg` batch. -/
theorem C1_assignment_truncated_head_scan :
    codeAssignAll [(1, "repo/pkg"), (0, "repo")] ["repo/main.py", "repo/pkg/util.py"]
        = [(1, "repo/pkg", []), (0, "repo", ["repo/main.py", "repo/pkg/util.py"])] ∧
    specAssignAll [(1, "repo/pkg"), (0, "repo")] ["repo/main.py", "repo/pkg/util.py"]
        = [(1, "repo/pkg", ["repo/pkg/util.py"]), (0, "repo", ["repo/main.py"])] := by
  decide

/-- C2: `main` invokes `process_files_and_create_prs` without supplying
the required parameter `target_branch`, so under Python call binding the
invocation raises `TypeError` at the call site and the processing body
never runs. -/
theorem C2_main_call_raises_type_error :
    callResult process_files_and_create_prs_params main_process_call_kwargs
        = Except.error ("TypeError") ∧
    process_files_and_create_prs_params.contains ("target_branch") = true ∧
    main_process_call_kwargs.contains ("target_branch") = false :=
  ⟨rfl, by decide, by decide⟩

/-- C3: the HANDOFF step is not failure-contained as claimed: the call of
`create_github_pr` in the dispatch loop omits the required parameter
`folder`, so reaching it raises an uncaught `TypeError` that aborts the
loop.  Concretely, with PR creation enabled and two non-empty batches,
only the first batch is processed: the run aborts with the root batch's
file still in the queue. -/
theorem C3_handoff_call_aborts_dispatch :
    prCallBindsOk = false ∧
    create_github_pr_params.contains ("folder") = true ∧
    process_pr_call_kwargs.contains ("folder") = false ∧
    processFolders ⟨true, true, true, true, false⟩ (fun _ => true) (fun _ => true)
        [(0, ["repo"]), (1, ["repo/pkg"])] ["repo/pkg/util.py", "repo/main.py"]
      = ([⟨1, "repo/pkg", ["repo/pkg/util.py"], true, false⟩], ["repo/main.py"], true) := by
  refine ⟨by decide, by decide, by decide, ?_⟩
  decide

/-- C4: with manual mode active, `approve_and_save_file` backs up and
overwrites the file and reports success without ever prompting the user:
the `manual` flag is accepted but never read, so no accept/reject
interaction occurs before the file is applied. -/
theorem C4_manual_mode_never_prompts :
    ((approve_and_save_file ⟨fun s => Except.ok s, fun _ => "h", fun p => p⟩
        ("new code") ("old code") ("f.py") true []).1 = true) ∧
    (FileEvent.promptUser ∉ (approve_and_save_file ⟨fun s => Except.ok s, fun _ => "h", fun p => p⟩
        ("new code") ("old code") ("f.py") true []).2.2) ∧
    (FileEvent.backup ∈ (approve_and_save_file ⟨fun s => Except.ok s, fun _ => "h", fun p => p⟩
        ("new code") ("old code") ("f.py") true []).2.2) ∧
    (FileEvent.write ("new code") ∈ (approve_and_save_file ⟨fun s => Except.ok s, fun _ => "h", fun p => p⟩
        ("new code") ("old code") ("f.py") true []).2.2) := by
  refine ⟨rfl, ?_, ?_, ?_⟩ <;> decide

/-- C5 counterexample: the assembled context can exceed the budget
`MAX_TOKENS - len(fileContent)`, because the stored description is a
mandatory slot included independently of the budget.  With
`MAX_TOKENS = 10`, a 5-character file and a 20-character description, the
budget is `5` but the assembled context has length `20`. -/
theorem C5_budget_counterexample :
    ¬ ((tokens (construct_few_shot_prompt (tokenBudget 10 ("12345"))
          ("aaaaaaaaaaaaaaaaaaaa") []) : Int) ≤ tokenBudget 10 ("12345")) := by
  decide

/-- C5 (amended): the budget handed to the assembler is
`MAX_TOKENS - len(fileContent)` (definition `tokenBudget`, from
process.py line 416), and whenever the mandatory stored-description slot
itself fits within that budget, the whole assembled context — description
plus greedily retrieved snippets — stays within the budget. -/
theorem C5_amended_budget_bound (maxTokens : Int) (original_code description : String)
    (snippets : List String)
    (h : (tokens description : Int) ≤ tokenBudget maxTokens original_code) :
    (tokens (construct_few_shot_prompt (tokenBudget maxTokens original_code)
        description snippets) : Int) ≤ tokenBudget maxTokens original_code := by
  have hg := greedySnippets_le (tokenBudget maxTokens original_code) snippets
    (tokens description) h
  have hlen : tokens (construct_few_shot_prompt (tokenBudget maxTokens original_code)
        description snippets)
      = tokens description
        + tokens (greedySnippets (tokenBudget maxTokens original_code) snippets
            (tokens description)) := by
    simp [construct_few_shot_prompt, tokens, String.length_append]
  rw [hlen]
  push_cast at hg ⊢
  omega

/-- C5 witness: a concrete instance of the amended budget bound, with
`MAX_TOKENS = 10`, a 5-character file, a 3-character description and one
snippet. -/
theorem C5_amended_budget_bound_witness :
    (tokens (construct_few_shot_prompt (tokenBudget 10 ("12345")) ("abc") ["xy"]) : Int)
      ≤ tokenBudget 10 ("12345") :=
  C5_amended_budget_bound 10 ("12345") ("abc") ["xy"] (by decide)

/-- C6: `filter_files_by_hash` returns exactly the readable input files
whose current content hash differs from (or is absent from) the cached
hash for their relative path; a file whose content cannot be read
contributes nothing to the returned change set. -/
theorem C6_filter_changed_files (hash rel : String → String)
    (files : List (String × Option String)) (cache : List (String × String)) :
    (∀ p, p ∈ filter_files_by_hash hash rel files cache ↔
        ∃ c, (p, some c) ∈ files ∧ cacheGet cache (rel p) ≠ some (hash c)) ∧
    (∀ q, (∀ c, (q, some c) ∉ files) →
        q ∉ filter_files_by_hash hash rel files cache) := by
  have hmem : ∀ p, p ∈ filter_files_by_hash hash rel files cache ↔
      ∃ c, (p, some c) ∈ files ∧ cacheGet cache (rel p) ≠ some (hash c) := by
    intro p
    unfold filter_files_by_hash
    rw [List.mem_filterMap]
    constructor
    · rintro ⟨⟨q, oc⟩, hmem, hf⟩
      cases oc with
      | none => simp at hf
      | some c =>
          by_cases hc : cacheGet cache (rel q) = some (hash c)
          · simp [hc] at hf
          · simp only [hc, if_neg, ite_false, Option.some.injEq] at hf
            subst hf
            exact ⟨c, hmem, hc⟩
    · rintro ⟨c, hmem, hc⟩
      exact ⟨(p, some c), hmem, by simp [hc]⟩
  refine ⟨hmem, ?_⟩
  intro q hq hmemq
  obtain ⟨c, hcin, _⟩ := (hmem q).mp hmemq
  exact hq c hcin

/-- C7: given the depth keys `0, 1, ..., maxDepth` that the (modelled)
`traverse_repo` produces, the dispatch loop processes batches in
non-increasing depth order: in the recorded batch sequence, every earlier
batch's depth is at least every later batch's depth. -/
theorem C7_descending_depth_order (cfg : RunCfg) (confirm prOracle : String → Bool)
    (maxDepth : Nat) (folderDict : List (Nat × List String)) (queue : List String)
    (h : folderDict.map Prod.fst = traverse_repo_keys maxDepth) :
    ((processFolders cfg confirm prOracle folderDict queue).1.map
      BatchRecord.depth).Pairwise (· ≥ ·) := by
  have hsorted : (folderDict.map Prod.fst).Pairwise (· ≤ ·) := by
    rw [h]
    exact List.pairwise_le_range _
  have hseq := foldersSeq_depths_pairwise folderDict hsorted
  have hsub := runBatches_depths_sublist cfg confirm prOracle (foldersSeq folderDict) queue
  exact hseq.sublist hsub

/-- C7 witness: a concrete run over depth keys `0, 1` whose recorded
batch depths are pairwise non-increasing. -/
theorem C7_descending_depth_order_witness :
    ((processFolders ⟨false, false, false, false, false⟩ (fun _ => true) (fun _ => true)
        [(0, ["repo"]), (1, ["repo/pkg"])]
        ["repo/pkg/util.py", "repo/main.py"]).1.map BatchRecord.depth).Pairwise (· ≥ ·) :=
  C7_descending_depth_order ⟨false, false, false, false, false⟩ (fun _ => true)
    (fun _ => true) 1 [(0, ["repo"]), (1, ["repo/pkg"])]
    ["repo/pkg/util.py", "repo/main.py"] (by decide)

/-- C8: when every file's current hash equals the cached hash, the change
set is empty, and running the per-folder phase on it records no batch,
processes no file and attempts no pull request: the run is a no-op. -/
theorem C8_idempotent_second_run (hash rel : String → String)
    (files : List (String × Option String)) (cache : List (String × String))
    (cfg : RunCfg) (confirm prOracle : String → Bool)
    (folderDict : List (Nat × List String))
    (h : ∀ pc ∈ files, ∃ c, pc.2 = some c ∧ cacheGet cache (rel pc.1) = some (hash c)) :
    filter_files_by_hash hash rel files cache = [] ∧
    processFolders cfg confirm prOracle folderDict
        (filter_files_by_hash hash rel files cache) = ([], [], false) := by
  have hnil : filter_files_by_hash hash rel files cache = [] := by
    apply List.filterMap_eq_nil_iff.mpr
    intro pc hpc
    obtain ⟨c, hc, hmatch⟩ := h pc hpc
    simp [hc, hmatch]
  refine ⟨hnil, ?_⟩
  rw [hnil]
  exact runBatches_nil_queue cfg confirm prOracle (foldersSeq folderDict)

/-- C8 witness: a single cached file whose hash matches, with one root
folder: the change set is empty and the run records nothing. -/
theorem C8_idempotent_second_run_witness :
    filter_files_by_hash (fun s => s) (fun s => s) [("a.py", some ("code"))]
        [("a.py", "code")] = [] ∧
    processFolders ⟨true, true, true, true, false⟩ (fun _ => true) (fun _ => true)
        [(0, ["repo"])]
        (filter_files_by_hash (fun s => s) (fun s => s) [("a.py", some ("code"))]
          [("a.py", "code")]) = ([], [], false) :=
  C8_idempotent_second_run (fun s => s) (fun s => s) [("a.py", some ("code"))]
    [("a.py", "code")] ⟨true, true, true, true, false⟩ (fun _ => true) (fun _ => true)
    [(0, ["repo"])]
    (by
      intro pc hpc
      rw [List.mem_singleton] at hpc
      subst hpc
      exact ⟨"code", rfl, by decide⟩)

/-- C9: the description loop appends a context entry only when no entry
with the same normalized path is present, so — normalization being
idempotent — it preserves the invariant that the context summary holds at
most one entry per normalized path. -/
theorem C9_at_most_one_entry_per_path (norm rel : String → String)
    (gen : String → Option String) (files : List String)
    (summary : List ContextEntry)
    (hidem : ∀ x, norm (norm x) = norm x)
    (hinv : atMostOnePerPath norm summary) :
    atMostOnePerPath norm (process_file_descriptions norm rel gen files summary) := by
  induction files generalizing summary with
  | nil => exact hinv
  | cons f fs ih =>
      have hstep := descStep_preserves norm rel gen summary f hidem hinv
      simpa [process_file_descriptions, List.foldl_cons] using
        ih (descStep norm rel gen summary f) hstep

/-- C9 witness: processing the same path twice from an empty summary
yields a summary with pairwise distinct normalized paths. -/
theorem C9_at_most_one_entry_per_path_witness :
    atMostOnePerPath (fun x => x)
      (process_file_descriptions (fun x => x) (fun x => x) (fun _ => some ("d"))
        ["a.py", "a.py"] []) :=
  C9_at_most_one_entry_per_path (fun x => x) (fun x => x) (fun _ => some ("d"))
    ["a.py", "a.py"] [] (fun _ => rfl) List.Pairwise.nil

/-- C10: called with empty proposed content, `approve_and_save_file`
returns `False`, leaves the cache exactly as it was, and performs no
backup, no write and no cache-update effect. -/
theorem C10_empty_content_is_noop (ctx : SaveCtx)
    (original_code python_file_path : String) (manual : Bool)
    (cache : List (String × String)) :
    approve_and_save_file ctx ("") original_code python_file_path manual cache
      = (false, cache, []) := rfl

end DocstringAI
